import Mathlib

/-!
Verification of the FactNews / Consensus system.

A shallow embedding of the client-side state logic (hooks, stores and result
views under `frontend/`) together with a model of the backend core (retrieval
engine, tiered embedding store, model council) whose implementation is
described by the specification and the backend README.  Definitions carry the
names of the source functions they embed where Lean allows it.
-/

namespace ConsensusSpec

/-! ### Shared data model

The response shapes consumed by the frontend.  Optional JSON fields become
`Option`; numeric scores become `ℚ`. -/

/-- The consensus answer payload (`ConsensusResponse` in `lib/types`), with the
fields that the embedded components read. -/
structure ConsensusResponse where
  facts : List String
  consensus_score : ℚ
  mode : String
  coverage_quality : Option String
  sources_analyzed : Option ℕ
  chunks_used : Option ℕ
  headline : Option String
  summary : Option String
  answer : Option String
  divergences : List String
  bias_analysis : Option String
deriving DecidableEq

/-- The judge block of an arena answer (`response.judge` in the arena pages). -/
structure ArenaJudge where
  best : String
  worst : String
deriving DecidableEq

/-- The arena answer payload (`ArenaResponse` in `lib/types`): judge verdict
plus run metadata (`meta.succeeded`). -/
structure ArenaResponse where
  judge : ArenaJudge
  meta_succeeded : ℕ
deriving DecidableEq

/-- Embedding of JavaScript `String.prototype.trim`: drop leading and trailing
whitespace characters. -/
def jsTrim (s : String) : String :=
  ⟨((s.data.dropWhile Char.isWhitespace).reverse.dropWhile Char.isWhitespace).reverse⟩

/-! ### Bookmark store (`frontend/stores/bookmarkStore.ts`)

`generateId()` and `Date.now()` are runtime inputs and appear as the `newId`
and `now` parameters; `BOOKMARKS_MAX` lives in `lib/constants` and appears as
the `maxB` parameter. -/

/-- A saved consensus bookmark (`Bookmark` in `lib/types`). -/
structure Bookmark where
  id : String
  query : String
  response : ConsensusResponse
  savedAt : ℕ
  note : Option String
  mode : Option String
deriving DecidableEq

/-- A saved arena bookmark (`ArenaBookmark` in `bookmarkStore.ts`). -/
structure ArenaBookmark where
  id : String
  query : String
  response : ArenaResponse
  savedAt : ℕ
  note : Option String
deriving DecidableEq

/-- The persisted bookmark store state (`BookmarkState`). -/
structure BookmarkState where
  bookmarks : List Bookmark
  arenaBookmarks : List ArenaBookmark
deriving DecidableEq

/-- `addBookmark`: build the new record, prepend it, keep the first
`BOOKMARKS_MAX` entries (`[new, ...state.bookmarks].slice(0, BOOKMARKS_MAX)`). -/
def addBookmark (maxB : ℕ) (newId : String) (now : ℕ) (query : String)
    (response : ConsensusResponse) (note mode : Option String)
    (st : BookmarkState) : BookmarkState :=
  { st with bookmarks :=
      (({ id := newId, query := query, response := response, savedAt := now,
          note := note, mode := mode } : Bookmark) :: st.bookmarks).take maxB }

/-- `addArenaBookmark`: same shape for arena bookmarks. -/
def addArenaBookmark (maxB : ℕ) (newId : String) (now : ℕ) (query : String)
    (response : ArenaResponse) (note : Option String)
    (st : BookmarkState) : BookmarkState :=
  { st with arenaBookmarks :=
      (({ id := newId, query := query, response := response, savedAt := now,
          note := note } : ArenaBookmark) :: st.arenaBookmarks).take maxB }

/-! ### Search-history store (`stores/searchHistoryStore.ts`) -/

/-- One search-history record (`SearchHistoryEntry` in `lib/types`). -/
structure SearchHistoryEntry where
  id : String
  query : String
  timestamp : ℕ
  response : Option ConsensusResponse
  consensusScore : Option ℚ
  factsCount : ℕ
  mode : String
  entryType : String
deriving DecidableEq

/-- One arena-history record (`ArenaHistoryEntry` in `lib/types`). -/
structure ArenaHistoryEntry where
  id : String
  query : String
  timestamp : ℕ
  response : ArenaResponse
  bestModel : String
  worstModel : String
  modelsCount : ℕ
  disruption : ℚ
deriving DecidableEq

/-- The persisted search-history store state (`SearchHistoryState`). -/
structure SearchHistoryState where
  entries : List SearchHistoryEntry
  arenaEntries : List ArenaHistoryEntry
deriving DecidableEq

/-- `addEntry`: derive the record from the optional response
(`response?.consensus_score ?? null`, `response?.facts.length ?? 0`,
`mode ?? (response?.mode === "fast" ? "fast" : "consensus")`), prepend it and
keep the first `SEARCH_HISTORY_MAX` entries. -/
def addEntry (maxH : ℕ) (newId : String) (now : ℕ) (query : String)
    (response : Option ConsensusResponse) (mode : Option String)
    (st : SearchHistoryState) : SearchHistoryState :=
  { st with entries :=
      (({ id := newId, query := query, timestamp := now, response := response,
          consensusScore := response.map (·.consensus_score),
          factsCount := (response.map (·.facts.length)).getD 0,
          mode := mode.getD
            (if response.any (fun r => r.mode == "fast") then "fast" else "consensus"),
          entryType := "search" } : SearchHistoryEntry) :: st.entries).take maxH }

/-- `addArenaEntry`: derive the record from the arena response
(`response.judge.best`, `response.judge.worst`, `response.meta.succeeded`,
`calcDisruption(response)` — `calcDisruption` lives in `lib/utils` and appears
as the `calcDisruption` parameter), prepend and truncate. -/
def addArenaEntry (maxH : ℕ) (calcDisruption : ArenaResponse → ℚ)
    (newId : String) (now : ℕ) (query : String) (response : ArenaResponse)
    (st : SearchHistoryState) : SearchHistoryState :=
  { st with arenaEntries :=
      (({ id := newId, query := query, timestamp := now, response := response,
          bestModel := response.judge.best, worstModel := response.judge.worst,
          modelsCount := response.meta_succeeded,
          disruption := calcDisruption response } : ArenaHistoryEntry)
        :: st.arenaEntries).take maxH }

/-! ### Source selection (`SourcesPage`)

The selected outlets form a JavaScript `Set<string>`, embedded as a
`Finset String`.  `toggle` and `selectAllInCountry` are the two state
transitions exercised by the page. -/

/-- The selection cap (`const MAX_SOURCES = 20`). -/
def MAX_SOURCES : ℕ := 20

/-- `toggle(name)`: a selected source is removed; an unselected one is added
only while the selection is below `MAX_SOURCES`
(`if (next.size >= MAX_SOURCES) return prev`). -/
def toggle (name : String) (sel : Finset String) : Finset String :=
  if name ∈ sel then sel.erase name
  else if MAX_SOURCES ≤ sel.card then sel
  else insert name sel

/-- The adding loop of `selectAllInCountry`: insert names in order but stop
the whole loop (`break`) as soon as the cap is reached. -/
def addUpToCap : List String → Finset String → Finset String
  | [], sel => sel
  | n :: ns, sel =>
    if MAX_SOURCES ≤ sel.card then sel else addUpToCap ns (insert n sel)

/-- `selectAllInCountry(country)`: if every listed source is already selected,
remove them all; otherwise add them in order until the cap is hit. -/
def selectAllInCountry (names : List String) (sel : Finset String) : Finset String :=
  if names.all (· ∈ sel) then names.foldl (fun s n => s.erase n) sel
  else addUpToCap names sel

/-- One user interaction on the sources page. -/
inductive SourceOp where
  | toggleOp (name : String)
  | selectAllOp (names : List String)

/-- Apply a sequence of selection interactions. -/
def runOps : List SourceOp → Finset String → Finset String
  | [], sel => sel
  | op :: ops, sel =>
    runOps ops
      (match op with
       | .toggleOp n => toggle n sel
       | .selectAllOp ns => selectAllInCountry ns sel)

/-! ### The ask status stream (`hooks/useConsensus.ts`)

The server-sent event loop of `useConsensus.ask` is embedded as a fold over
the sequence of parsed `data:` events.  An `error` event `throw`s; the `catch`
and `finally` blocks of `ask` are the two match arms of `ask` below. -/

/-- One parsed stream event: its `status` discriminator, its `message` field
and (for `complete` events) the response payload carried by the event object. -/
structure StreamEvent where
  status : String
  message : String
  payload : ConsensusResponse
deriving DecidableEq

/-- State held by the `useConsensus` hook: `response`, `loading`, `error`,
`streamStatus`. -/
structure AskState where
  response : Option ConsensusResponse
  loading : Bool
  error : Option String
  streamStatus : String
deriving DecidableEq

/-- Result of the event loop: either it ran off the end of the stream with a
final response, or an `error` event raised (`throw new Error(data.message)`). -/
inductive StreamOutcome where
  | ok (st : AskState) (finalResponse : Option ConsensusResponse)
  | thrown (st : AskState) (msg : String)
deriving DecidableEq

/-- The body of the `while` loop of `ask`: progress statuses record the
message, `complete` stores the payload and clears the status, `error` throws,
anything else is ignored. -/
def processStream : List StreamEvent → AskState → Option ConsensusResponse → StreamOutcome
  | [], st, fin => .ok st fin
  | e :: es, st, fin =>
    if e.status = "searching" ∨ e.status = "analyzing" ∨ e.status = "generating" then
      processStream es { st with streamStatus := e.message } fin
    else if e.status = "complete" then
      processStream es
        { st with response := some e.payload, streamStatus := "", loading := false }
        (some e.payload)
    else if e.status = "error" then
      .thrown st e.message
    else
      processStream es st fin

/-- `useConsensus.ask`: a blank question returns `null` before any effect;
otherwise the hook enters loading state, runs the stream and lands in the
`catch`/`finally` arms.  The boolean reports whether the network request was
issued. -/
def ask (st : AskState) (question : String) (events : List StreamEvent) :
    AskState × Option ConsensusResponse × Bool :=
  if jsTrim question = "" then (st, none, false)
  else
    let st1 : AskState :=
      { response := none, loading := true, error := none, streamStatus := "Initializing..." }
    match processStream events st1 none with
    | .ok st2 fin => ({ st2 with loading := false, streamStatus := "" }, fin, true)
    | .thrown st2 msg =>
      ({ st2 with error := some msg, loading := false, streamStatus := "" }, none, true)

/-- The payload of the last `complete` event of a stream, if any: the value
`ask` hands back to its caller on an error-free stream. -/
def lastCompletePayload (events : List StreamEvent) : Option ConsensusResponse :=
  events.foldl (fun acc e => if e.status = "complete" then some e.payload else acc) none

/-! ### Search preview (`hooks/useSearchPreview.ts`) and the arena analyze
handler (`app/arena/page.tsx`).  The network outcome is an `Except` input. -/

/-- State held by the `useSearchPreview` hook. -/
structure PreviewState where
  preview : Option String
  loading : Bool
  error : Option String
deriving DecidableEq

/-- `useSearchPreview.search`: blank questions return before any effect;
otherwise load, then either store the preview or the error message. -/
def search (st : PreviewState) (question : String) (outcome : Except String String) :
    PreviewState × Bool :=
  if jsTrim question = "" then (st, false)
  else
    let st1 : PreviewState := { st with loading := true, error := none }
    match outcome with
    | .ok d => ({ st1 with preview := some d, loading := false }, true)
    | .error m => ({ st1 with error := some m, loading := false }, true)

/-- State held by the arena page around `handleAnalyzeWithQuery`. -/
structure ArenaState where
  result : Option ArenaResponse
  loading : Bool
  error : Option String
  expandedId : Option String
deriving DecidableEq

/-- `handleAnalyzeWithQuery(query)`: blank queries return before any effect;
otherwise clear the previous result, issue the request and store the outcome. -/
def handleAnalyzeWithQuery (st : ArenaState) (query : String)
    (outcome : Except String ArenaResponse) : ArenaState × Bool :=
  if jsTrim query = "" then (st, false)
  else
    let st1 : ArenaState :=
      { st with loading := true, result := none, error := none, expandedId := none }
    match outcome with
    | .ok d => ({ st1 with result := some d, loading := false }, true)
    | .error m => ({ st1 with error := some m, loading := false }, true)

/-! ### Result views (`components/results/ResultsContainer.tsx`,
`components/results/MetricsBar.tsx`) -/

/-- JavaScript truthy-or for an optional number (`a || b || 0`): `0`,
`null` and `undefined` all fall through. -/
def jsOrNat (o : Option ℕ) (d : ℕ) : ℕ :=
  match o with
  | some n => if n = 0 then d else n
  | none => d

/-- What `MetricsBar` displays: the consensus card (hidden in fast mode), the
sources card and the coverage card. -/
structure MetricsView where
  showConsensusCard : Bool
  consensusValue : String
  consensusProgress : ℤ
  sourcesValue : ℕ
  sourcesSubtitle : String
  coverageText : String
  coverageSubtitle : String
deriving DecidableEq

/-- `MetricsBar`: `scorePercent = Math.round(consensus_score * 100)`; with no
facts the consensus card shows `N/A` with zero progress, the sources card says
`No relevant coverage` and the coverage card says `Topic not covered`. -/
def metricsBar (r : ConsensusResponse) : MetricsView :=
  let scorePercent : ℤ := round (r.consensus_score * 100)
  { showConsensusCard := r.mode != "fast"
    consensusValue :=
      if r.facts.length = 0 then "N/A" else toString scorePercent ++ "%"
    consensusProgress := if r.facts.length = 0 then 0 else scorePercent
    sourcesValue := jsOrNat r.sources_analyzed (jsOrNat r.chunks_used 0)
    sourcesSubtitle :=
      if r.facts.length = 0 then "No relevant coverage" else "From top outlets"
    coverageText :=
      match r.coverage_quality with
      | some c => if c = "" then "High" else c
      | none => "High"
    coverageSubtitle :=
      if r.facts.length = 0 then "Topic not covered" else "Multi-source verified" }

/-- What `ResultsContainer` renders: the dedicated no-results view, or the
full results layout headed by a mode badge and the metrics bar. -/
inductive ResultsView where
  | noResults
  | results (badge : String) (metrics : MetricsView)
deriving DecidableEq

/-- `ResultsContainer`: an empty facts list short-circuits to `NoResults`;
otherwise the layout carries the mode badge and the metrics bar. -/
def resultsContainer (r : ConsensusResponse) : ResultsView :=
  if r.facts.length = 0 then .noResults
  else
    .results (if r.mode = "fast" then "Fast AI (Cerebras)" else "Consensus Council")
      (metricsBar r)

/-! ### Stats (`hooks/useStats.ts`, `DashboardComponents.tsx`)

The backend `/stats` route is not under `src/`; its response shape is
modelled from the spec as a JSON object (an association list). -/

/-- A JSON field value as far as the stats contract needs. -/
inductive JsonVal where
  | num (n : ℕ)
  | flag (b : Bool)
  | str (s : String)
deriving DecidableEq

/-- The field names of the stats response, in wire order. -/
def statsFields : List String :=
  ["articles_indexed", "chunks_created", "sources", "embeddings_ready"]

/-- Modelled from the spec: the backend `stats()` operation
(`stats() -> {articles_indexed, chunks_created, sources, embeddings_ready}`,
served by the `/stats` route, not under `src/`) yields exactly these four
fields. -/
def statsResponse (articles chunks sources : ℕ) (ready : Bool) :
    List (String × JsonVal) :=
  [("articles_indexed", .num articles), ("chunks_created", .num chunks),
   ("sources", .num sources), ("embeddings_ready", .flag ready)]

/-- The `Stats` record the frontend consumes (`lib/types`). -/
structure Stats where
  articles_indexed : ℕ
  chunks_created : ℕ
  sources : ℕ
  embeddings_ready : Bool
deriving DecidableEq

/-- Decode the wire object into the `Stats` record: read the four fields and
nothing else. -/
def decodeStats (m : List (String × JsonVal)) : Option Stats :=
  match m.lookup "articles_indexed", m.lookup "chunks_created",
      m.lookup "sources", m.lookup "embeddings_ready" with
  | some (.num a), some (.num c), some (.num s), some (.flag r) =>
    some { articles_indexed := a, chunks_created := c, sources := s,
           embeddings_ready := r }
  | _, _, _, _ => none

/-- `StatsOverview`: the four metric cards, with `embeddings_ready` read as a
boolean readiness flag (`Ready` / `Pending`). -/
def statsOverview (s : Stats) : List (String × String) :=
  [("Articles Indexed", toString s.articles_indexed),
   ("Facts Checked", toString s.chunks_created),
   ("Sources", toString s.sources),
   ("Embeddings", if s.embeddings_ready then "Ready" else "Pending")]

/-- The dashboard rendering as a function of the wire object. -/
def statsOverviewOfResponse (m : List (String × JsonVal)) :
    Option (List (String × String)) :=
  (decodeStats m).map statsOverview

/-! ### Retrieval engine (backend `rag_optimized.py`, not under `src/`)

Modelled from the spec, sections 4.2 and 8: chunks carry id, source and
publish date; `retrieve` scores every indexed vector against the query,
sorts by descending similarity with ties broken by higher recency then
lexicographic chunk id, and keeps at most `k` entries. -/

/-- A vector of the embedding space, over `ℚ` in the model. -/
abbrev Vec := List ℚ

/-- Modelled from the spec: a chunk record
`{id, source article id, ordinal position, text span, source name, publish date}`
with the fields retrieval ordering reads; `publishDate` grows with recency. -/
structure Chunk where
  id : String
  sourceName : String
  publishDate : ℕ
  text : String

/-- One entry of an Evidence Set: a chunk with its similarity score. -/
structure Evidence where
  chunk : Chunk
  score : ℚ

/-- The retrieval result order: strictly higher score first, then strictly
higher recency, then chunk id in lexicographic order. -/
def evidenceLe (a b : Evidence) : Prop :=
  b.score < a.score ∨
    (a.score = b.score ∧
      (b.chunk.publishDate < a.chunk.publishDate ∨
        (a.chunk.publishDate = b.chunk.publishDate ∧ a.chunk.id ≤ b.chunk.id)))

instance : DecidableRel evidenceLe := fun a b => by
  unfold evidenceLe; infer_instance

instance : IsTotal Evidence evidenceLe := by
  constructor
  intro a b
  rcases lt_trichotomy a.score b.score with h | h | h
  · right; left; exact h
  · rcases lt_trichotomy a.chunk.publishDate b.chunk.publishDate with h2 | h2 | h2
    · right; right; exact ⟨h.symm, Or.inl h2⟩
    · rcases le_total a.chunk.id b.chunk.id with h3 | h3
      · left; right; exact ⟨h, Or.inr ⟨h2, h3⟩⟩
      · right; right; exact ⟨h.symm, Or.inr ⟨h2.symm, h3⟩⟩
    · left; right; exact ⟨h, Or.inl h2⟩
  · left; left; exact h

instance : IsTrans Evidence evidenceLe := by
  constructor
  intro a b c hab hbc
  rcases hab with h1 | ⟨e1, h1⟩
  · rcases hbc with h2 | ⟨e2, h2⟩
    · exact Or.inl (h2.trans h1)
    · exact Or.inl (e2 ▸ h1)
  · rcases hbc with h2 | ⟨e2, h2⟩
    · exact Or.inl (e1 ▸ h2)
    · refine Or.inr ⟨e1.trans e2, ?_⟩
      rcases h1 with h1 | ⟨f1, h1⟩
      · rcases h2 with h2 | ⟨f2, h2⟩
        · exact Or.inl (h2.trans h1)
        · exact Or.inl (f2 ▸ h1)
      · rcases h2 with h2 | ⟨f2, h2⟩
        · exact Or.inl (f1 ▸ h2)
        · exact Or.inr ⟨f1.trans f2, h1.trans h2⟩

/-- Modelled from the spec: `retrieve(query_text, k, filters)` over an
in-memory index.  The query is already embedded (`queryVec`); `sim` is the
similarity measure (cosine in the source); `allowed` is the source filter.
Every allowed vector is scored, the scored list is sorted by `evidenceLe`
and the first `k` entries form the Evidence Set. -/
def retrieve (sim : Vec → Vec → ℚ) (index : List (Chunk × Vec)) (queryVec : Vec)
    (k : ℕ) (allowed : Chunk → Bool) : List Evidence :=
  let scored := (index.filter (fun cv => allowed cv.1)).map
    (fun cv => { chunk := cv.1, score := sim queryVec cv.2 })
  (List.insertionSort evidenceLe scored).take k

/-! ### Tiered embedding store (backend `embedding_cache.py` /
`rag_optimized.py`, not under `src/`)

Modelled from the spec, section 4.1: fast tier, then durable snapshot, then
the source-of-truth embedding API, each a strict fallback of the previous. -/

/-- Modelled from the spec: the three lookup tiers of the embedding store.
`fastEnabled` is false when the fast tier is disabled or unreachable. -/
structure TieredStore where
  fast : String → Option Vec
  fastEnabled : Bool
  durable : String → Option Vec
  source : String → Option Vec

/-- Modelled from the spec: `get_or_compute` for one chunk id — fast tier
first (when enabled), then the durable snapshot, then the source of truth. -/
def get_or_compute (st : TieredStore) (chunkId : String) : Option Vec :=
  match (if st.fastEnabled then st.fast chunkId else none) with
  | some v => some v
  | none =>
    match st.durable chunkId with
    | some v => some v
    | none => st.source chunkId

/-- The store with the fast tier disabled. -/
def disableFast (st : TieredStore) : TieredStore :=
  { st with fastEnabled := false }

/-- Cache coherence: the caches only ever hold vectors that were computed by
the source of truth (section 4.1 writes both tiers from the source), so a
cached vector always agrees with the source. -/
def Coherent (st : TieredStore) : Prop :=
  ∀ chunkId v, (st.fast chunkId = some v → st.source chunkId = some v) ∧
    (st.durable chunkId = some v → st.source chunkId = some v)

/-- Build the in-memory index from the store: each chunk whose vector any
tier can produce enters the index. -/
def indexFromStore (st : TieredStore) (chunks : List Chunk) : List (Chunk × Vec) :=
  chunks.filterMap (fun c => (get_or_compute st c.id).map (fun v => (c, v)))

/-- Retrieval served through the tiered store. -/
def retrieveViaStore (st : TieredStore) (sim : Vec → Vec → ℚ) (chunks : List Chunk)
    (queryVec : Vec) (k : ℕ) (allowed : Chunk → Bool) : List Evidence :=
  retrieve sim (indexFromStore st chunks) queryVec k allowed

/-! ### Model council (backend `inference/council.py`, not under `src/`)

Modelled from the spec, section 4.4, and the backend README: N providers
answer concurrently; the judge synthesizes a Verdict; zero successes yield an
explicit no-deliberation Verdict with confidence zero. -/

/-- The closed provider error taxonomy of section 4.3. -/
inductive ProviderErrorKind where
  | rateLimited
  | timedOut
  | authError
  | unavailable
  | malformed
deriving DecidableEq

/-- The terminal state of one provider call. -/
inductive CallOutcome where
  | ok (answer : String)
  | failed (kind : ProviderErrorKind)
deriving DecidableEq

/-- Whether a call outcome is a success. -/
def isOk : CallOutcome → Bool
  | .ok _ => true
  | .failed _ => false

/-- The structured verdict of a deliberation. -/
structure Verdict where
  synthesis : String
  agreement_points : List String
  disagreement_points : List String
  model_rankings : List String
  confidence : ℚ
  best : Option String
  worst : Option String
deriving DecidableEq

/-- Modelled from the spec: the Verdict produced when zero providers succeed —
an explicit statement that no deliberation was possible, confidence zero. -/
def noDeliberationVerdict : Verdict :=
  { synthesis := "No deliberation was possible: all providers failed."
    agreement_points := []
    disagreement_points := []
    model_rankings := []
    confidence := 0
    best := none
    worst := none }

/-- Modelled from the spec: the mechanical fallback when the judge call fails —
synthesis is the longest (most detailed) successful answer, confidence marked
low. -/
def fallbackVerdict (oks : List (String × String)) : Verdict :=
  { synthesis := oks.foldl (fun acc pa => if acc.length < pa.2.length then pa.2 else acc) ""
    agreement_points := []
    disagreement_points := []
    model_rankings := oks.map (·.1)
    confidence := 1 / 10
    best := none
    worst := none }

/-- Modelled from the spec: the Collecting state's global ceiling — providers
still in flight (`none`) when the ceiling elapses are treated as
failed-by-timeout for this deliberation. -/
def collectAtDeadline (inflight : List (String × Option CallOutcome)) :
    List (String × CallOutcome) :=
  inflight.map (fun pr => (pr.1, pr.2.getD (.failed .timedOut)))

/-- Modelled from the spec: `ModelCouncil.deliberate` after collection — keep
the successful answers in configuration order; with none, return the explicit
no-deliberation Verdict; otherwise the judge output, or the mechanical
fallback when the judge fails.  Total by construction: it always returns a
Verdict and never raises. -/
def deliberate (results : List (String × CallOutcome))
    (judge : List (String × String) → Option Verdict) : Verdict :=
  let oks := results.filterMap
    (fun pr => match pr.2 with | .ok a => some (pr.1, a) | .failed _ => none)
  match oks with
  | [] => noDeliberationVerdict
  | _ :: _ =>
    match judge oks with
    | some v => v
    | none => fallbackVerdict oks

/-- A full council run: collect at the deadline, then deliberate. -/
def councilRun (inflight : List (String × Option CallOutcome))
    (judge : List (String × String) → Option Verdict) : Verdict :=
  deliberate (collectAtDeadline inflight) judge

/-- A concrete empty-coverage consensus response, for concrete instantiations. -/
def rEmpty : ConsensusResponse :=
  { facts := [], consensus_score := 0, mode := "consensus",
    coverage_quality := none, sources_analyzed := none, chunks_used := none,
    headline := none, summary := none, answer := none, divergences := [],
    bias_analysis := none }

/-- A concrete arena response, for concrete instantiations. -/
def aEmpty : ArenaResponse :=
  { judge := { best := "openai", worst := "deepseek" }, meta_succeeded := 2 }

/-! ## Theorems -/

/-! ### Source-selection helper lemmas -/

lemma toggle_card_le (n : String) (sel : Finset String)
    (h : sel.card ≤ MAX_SOURCES) : (toggle n sel).card ≤ MAX_SOURCES := by
  unfold toggle
  split
  · exact le_trans (Finset.card_erase_le) h
  · split
    · exact h
    · rename_i h1 h2
      have h3 := Finset.card_insert_le n sel
      omega

lemma addUpToCap_card_le (names : List String) (sel : Finset String)
    (h : sel.card ≤ MAX_SOURCES) : (addUpToCap names sel).card ≤ MAX_SOURCES := by
  induction names generalizing sel with
  | nil => simpa [addUpToCap] using h
  | cons n ns ih =>
    unfold addUpToCap
    split
    · exact h
    · rename_i h2
      apply ih
      have h3 := Finset.card_insert_le n sel
      omega

lemma eraseFold_card_le (names : List String) (sel : Finset String) :
    (names.foldl (fun s n => s.erase n) sel).card ≤ sel.card := by
  induction names generalizing sel with
  | nil => simp
  | cons n ns ih => exact le_trans (ih (sel.erase n)) Finset.card_erase_le

lemma selectAllInCountry_card_le (names : List String) (sel : Finset String)
    (h : sel.card ≤ MAX_SOURCES) :
    (selectAllInCountry names sel).card ≤ MAX_SOURCES := by
  unfold selectAllInCountry
  split
  · exact le_trans (eraseFold_card_le names sel) h
  · exact addUpToCap_card_le names sel h

lemma runOps_card_le (ops : List SourceOp) (sel : Finset String)
    (h : sel.card ≤ MAX_SOURCES) : (runOps ops sel).card ≤ MAX_SOURCES := by
  induction ops generalizing sel with
  | nil => simpa [runOps] using h
  | cons op ops ih =>
    unfold runOps
    apply ih
    cases op with
    | toggleOp n => exact toggle_card_le n sel h
    | selectAllOp ns => exact selectAllInCountry_card_le ns sel h

/-- C9: every sequence of toggle and select-all interactions keeps the
selection within `MAX_SOURCES`; toggling a selected source removes it;
toggling an unselected source at the cap leaves the selection unchanged;
bulk select never pushes the selection past the cap. -/
theorem source_selection_cap :
    (∀ ops sel, sel.card ≤ MAX_SOURCES →
      (runOps ops sel).card ≤ MAX_SOURCES) ∧
    (∀ n sel, n ∈ sel → toggle n sel = sel.erase n) ∧
    (∀ n sel, n ∉ sel → MAX_SOURCES ≤ sel.card → toggle n sel = sel) ∧
    (∀ names sel, sel.card ≤ MAX_SOURCES →
      (selectAllInCountry names sel).card ≤ MAX_SOURCES) := by
  refine ⟨runOps_card_le, ?_, ?_, selectAllInCountry_card_le⟩
  · intro n sel h
    simp [toggle, h]
  · intro n sel h1 h2
    simp [toggle, h1, h2]

/-- Witness for C9: a concrete interaction run from the initial empty
selection, and a concrete toggle of a selected source. -/
theorem source_selection_cap_witness :
    (runOps [SourceOp.selectAllOp ["reuters", "bbc", "ap"],
      SourceOp.toggleOp "bbc"] ∅).card ≤ MAX_SOURCES ∧
    toggle "ap" {"ap", "bbc"} = ({"ap", "bbc"} : Finset String).erase "ap" ∧
    toggle "x20" {"s01", "s02", "s03", "s04", "s05", "s06", "s07", "s08", "s09",
      "s10", "s11", "s12", "s13", "s14", "s15", "s16", "s17", "s18", "s19", "s20"} =
      {"s01", "s02", "s03", "s04", "s05", "s06", "s07", "s08", "s09", "s10",
       "s11", "s12", "s13", "s14", "s15", "s16", "s17", "s18", "s19", "s20"} :=
  ⟨source_selection_cap.1 _ ∅ (by decide),
   source_selection_cap.2.1 "ap" _ (by decide),
   source_selection_cap.2.2.1 "x20" _ (by decide) (by decide)⟩

/-- C8: each of the four add operations prepends the freshly built record
(carrying the fresh id) at the front and truncates, so the stored lists never
exceed their configured caps. -/
theorem add_ops_cap_and_prepend (maxB maxH : ℕ) (calcD : ArenaResponse → ℚ)
    (newId : String) (now : ℕ) (query : String) (resp : ConsensusResponse)
    (aresp : ArenaResponse) (oresp : Option ConsensusResponse)
    (note mode : Option String) (bst : BookmarkState) (hst : SearchHistoryState) :
    ((addBookmark maxB newId now query resp note mode bst).bookmarks.length ≤ maxB ∧
      (0 < maxB →
        ((addBookmark maxB newId now query resp note mode bst).bookmarks.head?).map (·.id) =
          some newId)) ∧
    ((addArenaBookmark maxB newId now query aresp note bst).arenaBookmarks.length ≤ maxB ∧
      (0 < maxB →
        ((addArenaBookmark maxB newId now query aresp note bst).arenaBookmarks.head?).map (·.id) =
          some newId)) ∧
    ((addEntry maxH newId now query oresp mode hst).entries.length ≤ maxH ∧
      (0 < maxH →
        ((addEntry maxH newId now query oresp mode hst).entries.head?).map (·.id) =
          some newId)) ∧
    ((addArenaEntry maxH calcD newId now query aresp hst).arenaEntries.length ≤ maxH ∧
      (0 < maxH →
        ((addArenaEntry maxH calcD newId now query aresp hst).arenaEntries.head?).map (·.id) =
          some newId)) := by
  refine ⟨⟨?_, ?_⟩, ⟨?_, ?_⟩, ⟨?_, ?_⟩, ⟨?_, ?_⟩⟩
  · simp [addBookmark, List.length_take]
  · intro hpos
    cases maxB with
    | zero => exact absurd hpos (lt_irrefl 0)
    | succ m => simp [addBookmark, List.take_succ_cons]
  · simp [addArenaBookmark, List.length_take]
  · intro hpos
    cases maxB with
    | zero => exact absurd hpos (lt_irrefl 0)
    | succ m => simp [addArenaBookmark, List.take_succ_cons]
  · simp [addEntry, List.length_take]
  · intro hpos
    cases maxH with
    | zero => exact absurd hpos (lt_irrefl 0)
    | succ m => simp [addEntry, List.take_succ_cons]
  · simp [addArenaEntry, List.length_take]
  · intro hpos
    cases maxH with
    | zero => exact absurd hpos (lt_irrefl 0)
    | succ m => simp [addArenaEntry, List.take_succ_cons]

/-- Witness for C8: the four operations applied to concrete stores with cap 3,
checking the bound and the fresh record at the front. -/
theorem add_ops_cap_and_prepend_witness :
    ((addBookmark 3 "id1" 7 "q" rEmpty none none ⟨[], []⟩).bookmarks.length ≤ 3 ∧
      ((addBookmark 3 "id1" 7 "q" rEmpty none none ⟨[], []⟩).bookmarks.head?).map (·.id) =
        some "id1") ∧
    ((addArenaEntry 3 (fun _ => 0) "id2" 7 "q" aEmpty ⟨[], []⟩).arenaEntries.length ≤ 3 ∧
      ((addArenaEntry 3 (fun _ => 0) "id2" 7 "q" aEmpty ⟨[], []⟩).arenaEntries.head?).map (·.id) =
        some "id2") := by
  have h := add_ops_cap_and_prepend 3 3 (fun _ => 0) "id1" 7 "q" rEmpty aEmpty
    none none none ⟨[], []⟩ ⟨[], []⟩
  have h2 := add_ops_cap_and_prepend 3 3 (fun _ => 0) "id2" 7 "q" rEmpty aEmpty
    none none none ⟨[], []⟩ ⟨[], []⟩
  exact ⟨⟨h.1.1, h.1.2 (by decide)⟩, ⟨h2.2.2.2.1, h2.2.2.2.2 (by decide)⟩⟩

/-- C6: a consensus response with an empty facts list renders as the valid
no-coverage outcome — the no-results view, consensus score shown as N/A with
zero progress, and the sources card reporting no relevant coverage — never as
an error. -/
theorem empty_facts_no_coverage (r : ConsensusResponse) (h : r.facts = []) :
    resultsContainer r = ResultsView.noResults ∧
    (metricsBar r).consensusValue = "N/A" ∧
    (metricsBar r).consensusProgress = 0 ∧
    (metricsBar r).sourcesSubtitle = "No relevant coverage" ∧
    (metricsBar r).coverageSubtitle = "Topic not covered" := by
  refine ⟨?_, ?_, ?_, ?_, ?_⟩ <;> simp [resultsContainer, metricsBar, h]

/-- Witness for C6: the concrete empty-coverage response. -/
theorem empty_facts_no_coverage_witness :
    resultsContainer rEmpty = ResultsView.noResults ∧
    (metricsBar rEmpty).consensusValue = "N/A" ∧
    (metricsBar rEmpty).consensusProgress = 0 ∧
    (metricsBar rEmpty).sourcesSubtitle = "No relevant coverage" ∧
    (metricsBar rEmpty).coverageSubtitle = "Topic not covered" :=
  empty_facts_no_coverage rEmpty rfl

/-- C7: the stats payload carries exactly the four contracted fields; the
dashboard decodes precisely those fields (its rendering depends on nothing
else in the payload) and reads `embeddings_ready` as a boolean readiness
flag. -/
theorem stats_contract :
    (∀ a c s r, (statsResponse a c s r).map Prod.fst = statsFields) ∧
    (∀ a c s r, decodeStats (statsResponse a c s r) =
      some { articles_indexed := a, chunks_created := c, sources := s,
             embeddings_ready := r }) ∧
    (∀ m m', (∀ k ∈ statsFields, m.lookup k = m'.lookup k) →
      statsOverviewOfResponse m = statsOverviewOfResponse m') ∧
    (∀ s, (statsOverview s).lookup "Embeddings" =
      some (if s.embeddings_ready then "Ready" else "Pending")) := by
  refine ⟨?_, ?_, ?_, ?_⟩
  · intro a c s r
    simp [statsResponse, statsFields]
  · intro a c s r
    simp [decodeStats, statsResponse, List.lookup]
  · intro m m' h
    have h1 := h "articles_indexed" (by simp [statsFields])
    have h2 := h "chunks_created" (by simp [statsFields])
    have h3 := h "sources" (by simp [statsFields])
    have h4 := h "embeddings_ready" (by simp [statsFields])
    simp [statsOverviewOfResponse, decodeStats, h1, h2, h3, h4]
  · intro s
    simp [statsOverview, List.lookup]

/-- Witness for C7: a concrete stats payload, decoded and rendered, next to a
payload carrying an extra unknown field that renders identically. -/
theorem stats_contract_witness :
    (statsResponse 12 340 5 true).map Prod.fst = statsFields ∧
    decodeStats (statsResponse 12 340 5 true) =
      some { articles_indexed := 12, chunks_created := 340, sources := 5,
             embeddings_ready := true } ∧
    statsOverviewOfResponse (("extra", JsonVal.str "x") :: statsResponse 12 340 5 true) =
      statsOverviewOfResponse (statsResponse 12 340 5 true ++ [("other", JsonVal.num 9)]) ∧
    (statsOverview ⟨12, 340, 5, true⟩).lookup "Embeddings" = some "Ready" := by
  refine ⟨stats_contract.1 12 340 5 true, stats_contract.2.1 12 340 5 true, ?_, ?_⟩
  · exact stats_contract.2.2.1 _ _ (by decide)
  · have h := stats_contract.2.2.2 ⟨12, 340, 5, true⟩
    simpa using h

/-- C10: a question that is empty or all whitespace makes `ask` return null
and makes `search` and `handleAnalyzeWithQuery` return at once — with no
network request issued and the hook state untouched. -/
theorem blank_input_no_side_effects :
    (∀ st q events, jsTrim q = "" → ask st q events = (st, none, false)) ∧
    (∀ st q outcome, jsTrim q = "" → search st q outcome = (st, false)) ∧
    (∀ st q outcome, jsTrim q = "" →
      handleAnalyzeWithQuery st q outcome = (st, false)) := by
  refine ⟨?_, ?_, ?_⟩ <;> intro st q x h <;>
    simp [ask, search, handleAnalyzeWithQuery, h]

/-- Witness for C10: the three handlers on a whitespace-only question. -/
theorem blank_input_no_side_effects_witness :
    ask { response := none, loading := false, error := none, streamStatus := "" }
        "   " [] =
      ({ response := none, loading := false, error := none, streamStatus := "" },
        none, false) ∧
    search { preview := none, loading := false, error := none } "   " (.ok "d") =
      ({ preview := none, loading := false, error := none }, false) ∧
    handleAnalyzeWithQuery
        { result := none, loading := false, error := none, expandedId := none }
        "   " (.error "boom") =
      ({ result := none, loading := false, error := none, expandedId := none },
        false) :=
  ⟨blank_input_no_side_effects.1 _ _ _ (by decide),
   blank_input_no_side_effects.2.1 _ _ _ (by decide),
   blank_input_no_side_effects.2.2 _ _ _ (by decide)⟩

/-- C1: for every query, every k and every source filter, the Evidence Set
returned by `retrieve` holds at most k entries and is sorted by `evidenceLe` —
descending similarity, ties broken by higher recency and then lexicographic
chunk id.  `retrieve` is a pure function, so the ordering is deterministic. -/
theorem retrieve_topk_sorted (sim : Vec → Vec → ℚ) (index : List (Chunk × Vec))
    (queryVec : Vec) (k : ℕ) (allowed : Chunk → Bool) :
    (retrieve sim index queryVec k allowed).length ≤ k ∧
    List.Sorted evidenceLe (retrieve sim index queryVec k allowed) := by
  constructor
  · simp [retrieve, List.length_take]
  · exact List.Pairwise.sublist (List.take_sublist _ _)
      (List.sorted_insertionSort evidenceLe _)

/-- One provider entry is known to have failed or to still be in flight. -/
def noSuccess (o : Option CallOutcome) : Bool :=
  match o with
  | some (.ok _) => false
  | _ => true

/-- C2: when every provider call ends in failure, `deliberate` still returns
the explicit no-deliberation Verdict with confidence zero; the same holds for
a full council run in which every call has failed or is still in flight at
the global ceiling (late calls are treated as failed-by-timeout).  Both
functions are total — they always produce a Verdict and never raise. -/
theorem council_all_fail_verdict :
    (∀ results judge, (∀ pr ∈ results, isOk pr.2 = false) →
      deliberate results judge = noDeliberationVerdict) ∧
    (∀ inflight judge, (∀ pr ∈ inflight, noSuccess pr.2 = true) →
      councilRun inflight judge = noDeliberationVerdict ∧
      (councilRun inflight judge).confidence = 0 ∧
      (councilRun inflight judge).synthesis =
        "No deliberation was possible: all providers failed.") := by
  have main : ∀ (results : List (String × CallOutcome)) judge,
      (∀ pr ∈ results, isOk pr.2 = false) →
      deliberate results judge = noDeliberationVerdict := by
    intro results judge h
    have hoks : results.filterMap
        (fun pr => match pr.2 with | .ok a => some (pr.1, a) | .failed _ => none) =
        [] := by
      rw [List.filterMap_eq_nil_iff]
      intro pr hpr
      have hfail := h pr hpr
      cases ho : pr.2 with
      | ok a => rw [ho] at hfail; simp [isOk] at hfail
      | failed kind => simp
    simp [deliberate, hoks]
  refine ⟨main, ?_⟩
  intro inflight judge h
  have hcol : ∀ pr ∈ collectAtDeadline inflight, isOk pr.2 = false := by
    intro pr hpr
    simp only [collectAtDeadline, List.mem_map] at hpr
    obtain ⟨q, hq, rfl⟩ := hpr
    have hns := h q hq
    cases hq2 : q.2 with
    | none => simp [hq2, isOk]
    | some o =>
      rw [hq2] at hns
      cases o with
      | ok a => simp [noSuccess] at hns
      | failed kind => simp [hq2, isOk]
  have := main (collectAtDeadline inflight) judge hcol
  refine ⟨this, ?_, ?_⟩ <;> simp [councilRun, this, noDeliberationVerdict]

/-- Witness for C2: a concrete run where one provider fails terminally and a
second is still in flight at the ceiling, under a judge that never answers. -/
theorem council_all_fail_verdict_witness :
    deliberate [("openai", .failed .rateLimited), ("deepseek", .failed .timedOut)]
        (fun _ => none) = noDeliberationVerdict ∧
    councilRun [("openai", some (.failed .rateLimited)), ("anthropic", none)]
        (fun _ => none) = noDeliberationVerdict ∧
    (councilRun [("openai", some (.failed .rateLimited)), ("anthropic", none)]
        (fun _ => none)).confidence = 0 :=
  ⟨council_all_fail_verdict.1 _ (fun _ => none) (by decide),
   (council_all_fail_verdict.2 _ (fun _ => none) (by decide)).1,
   (council_all_fail_verdict.2 _ (fun _ => none) (by decide)).2.1⟩

/-- C4: under cache coherence (cached vectors were computed by the source of
truth), `get_or_compute` yields the source-of-truth vector no matter which
tier serves it, and disabling the fast tier changes neither the served
vectors nor any retrieval result. -/
theorem tier_transparency (st : TieredStore) (h : Coherent st) :
    (∀ chunkId, get_or_compute st chunkId = st.source chunkId) ∧
    (∀ chunkId, get_or_compute (disableFast st) chunkId =
      get_or_compute st chunkId) ∧
    (∀ sim chunks queryVec k allowed,
      retrieveViaStore (disableFast st) sim chunks queryVec k allowed =
        retrieveViaStore st sim chunks queryVec k allowed) := by
  have key : ∀ (st2 : TieredStore), Coherent st2 →
      ∀ chunkId, get_or_compute st2 chunkId = st2.source chunkId := by
    intro st2 h2 chunkId
    unfold get_or_compute
    by_cases he : st2.fastEnabled
    · simp only [he, if_true]
      cases hf : st2.fast chunkId with
      | some v => simp [(h2 chunkId v).1 hf]
      | none =>
        cases hd : st2.durable chunkId with
        | some v => simp [(h2 chunkId v).2 hd]
        | none => simp
    · simp only [he, if_false]
      cases hd : st2.durable chunkId with
      | some v => simp [(h2 chunkId v).2 hd]
      | none => simp
  have hdis : Coherent (disableFast st) := h
  have h2 : ∀ chunkId, get_or_compute (disableFast st) chunkId =
      get_or_compute st chunkId := by
    intro chunkId
    rw [key st h chunkId, key (disableFast st) hdis chunkId]
    rfl
  refine ⟨key st h, h2, ?_⟩
  intro sim chunks queryVec k allowed
  have hidx : indexFromStore (disableFast st) chunks = indexFromStore st chunks := by
    unfold indexFromStore
    congr 1
    funext c
    rw [h2 c.id]
  rw [retrieveViaStore, retrieveViaStore, hidx]

/-- Witness for C4: a coherent store with empty caches and a one-vector
source of truth. -/
theorem tier_transparency_witness :
    get_or_compute
        { fast := fun _ => none, fastEnabled := true,
          durable := fun _ => none, source := fun _ => some [1, 0] } "c1" =
      some [1, 0] ∧
    get_or_compute
        (disableFast
          { fast := fun _ => none, fastEnabled := true,
            durable := fun _ => none, source := fun _ => some [1, 0] }) "c1" =
      some [1, 0] := by
  have hco : Coherent
      { fast := fun _ => none, fastEnabled := true,
        durable := fun _ => none, source := fun _ => some [1, 0] } :=
    fun _ v => ⟨fun hf => Option.noConfusion hf, fun hd => Option.noConfusion hd⟩
  have h := tier_transparency _ hco
  exact ⟨h.1 "c1", by rw [h.2.1 "c1"]; exact h.1 "c1"⟩

/-! ### Stream-handling helper lemmas -/

lemma processStream_no_error (events : List StreamEvent) (st : AskState)
    (fin : Option ConsensusResponse) (h : ∀ e ∈ events, e.status ≠ "error") :
    ∃ st2, processStream events st fin =
      .ok st2 (events.foldl
        (fun acc e => if e.status = "complete" then some e.payload else acc) fin) ∧
      st2.error = st.error := by
  induction events generalizing st fin with
  | nil => exact ⟨st, rfl, rfl⟩
  | cons e es ih =>
    have hne : e.status ≠ "error" := h e (by simp)
    have h' : ∀ e2 ∈ es, e2.status ≠ "error" := fun e2 he2 => h e2 (by simp [he2])
    by_cases h1 : e.status = "searching" ∨ e.status = "analyzing" ∨
        e.status = "generating"
    · obtain ⟨st2, heq, herr⟩ := ih { st with streamStatus := e.message } fin h'
      refine ⟨st2, ?_, herr⟩
      have hne2 : e.status ≠ "complete" := by
        rcases h1 with h1 | h1 | h1 <;> rw [h1] <;> decide
      simp only [processStream, if_pos h1, List.foldl_cons, if_neg hne2]
      exact heq
    · by_cases h2 : e.status = "complete"
      · obtain ⟨st2, heq, herr⟩ := ih
          { st with response := some e.payload, streamStatus := "", loading := false }
          (some e.payload) h'
        refine ⟨st2, ?_, herr⟩
        simp only [processStream, if_neg h1, if_pos h2, List.foldl_cons, if_pos h2]
        exact heq
      · obtain ⟨st2, heq, herr⟩ := ih st fin h'
        refine ⟨st2, ?_, herr⟩
        simp only [processStream, if_neg h1, if_neg h2, if_neg hne,
          List.foldl_cons, if_neg h2]
        exact heq

lemma processStream_error (pre : List StreamEvent) (e : StreamEvent)
    (post : List StreamEvent) (st : AskState) (fin : Option ConsensusResponse)
    (he : e.status = "error") (hpre : ∀ e2 ∈ pre, e2.status ≠ "error") :
    ∃ st2, processStream (pre ++ e :: post) st fin = .thrown st2 e.message := by
  induction pre generalizing st fin with
  | nil =>
    refine ⟨st, ?_⟩
    have h1 : ¬(e.status = "searching" ∨ e.status = "analyzing" ∨
        e.status = "generating") := by rw [he]; decide
    have h2 : e.status ≠ "complete" := by rw [he]; decide
    simp only [List.nil_append, processStream, if_neg h1, if_neg h2, if_pos he]
  | cons p pre' ih =>
    have hp : p.status ≠ "error" := hpre p (by simp)
    have hpre' : ∀ e2 ∈ pre', e2.status ≠ "error" :=
      fun e2 h2 => hpre e2 (by simp [h2])
    by_cases h1 : p.status = "searching" ∨ p.status = "analyzing" ∨
        p.status = "generating"
    · simp only [List.cons_append, processStream, if_pos h1]
      exact ih _ _ hpre'
    · by_cases h2 : p.status = "complete"
      · simp only [List.cons_append, processStream, if_neg h1, if_pos h2]
        exact ih _ _ hpre'
      · simp only [List.cons_append, processStream, if_neg h1, if_neg h2,
          if_neg hp]
        exact ih _ _ hpre'

/-- C5: on the ask status stream, a searching/analyzing/generating event only
records its message as the stream status; on an error-free stream `ask`
returns the payload of the last `complete` event with no error recorded; a
stream whose first off-nominal event is an `error` makes `ask` store the
structured message and return null.  `ask` is a total function into a state
and a value, so a failure is never surfaced as a raised fault. -/
theorem ask_stream_event_handling :
    (∀ e es st fin,
      (e.status = "searching" ∨ e.status = "analyzing" ∨ e.status = "generating") →
      processStream (e :: es) st fin =
        processStream es { st with streamStatus := e.message } fin) ∧
    (∀ st q events, jsTrim q ≠ "" → (∀ e ∈ events, e.status ≠ "error") →
      (ask st q events).2.1 = lastCompletePayload events ∧
      (ask st q events).1.error = none) ∧
    (∀ st q pre e post, jsTrim q ≠ "" → e.status = "error" →
      (∀ e2 ∈ pre, e2.status ≠ "error") →
      (ask st q (pre ++ e :: post)).2.1 = none ∧
      (ask st q (pre ++ e :: post)).1.error = some e.message) := by
  refine ⟨?_, ?_, ?_⟩
  · intro e es st fin h
    simp only [processStream, if_pos h]
  · intro st q events hq herr
    obtain ⟨st2, heq, he2⟩ := processStream_no_error events
      { response := none, loading := true, error := none,
        streamStatus := "Initializing..." } none herr
    constructor <;> simp [ask, if_neg hq, heq, lastCompletePayload, he2]
  · intro st q pre e post hq he hpre
    obtain ⟨st2, heq⟩ := processStream_error pre e post
      { response := none, loading := true, error := none,
        streamStatus := "Initializing..." } none he hpre
    constructor <;> simp [ask, if_neg hq, heq]

/-- Witness for C5: a concrete stream with one progress event and one
completion, and a concrete stream raising an error. -/
theorem ask_stream_event_handling_witness :
    processStream [⟨"searching", "Scanning sources", rEmpty⟩,
        ⟨"complete", "done", rEmpty⟩]
        { response := none, loading := true, error := none, streamStatus := "" }
        none =
      processStream [⟨"complete", "done", rEmpty⟩]
        { response := none, loading := true, error := none,
          streamStatus := "Scanning sources" } none ∧
    (ask { response := none, loading := false, error := none, streamStatus := "" }
        "q" [⟨"searching", "Scanning sources", rEmpty⟩,
          ⟨"complete", "done", rEmpty⟩]).2.1 =
      lastCompletePayload [⟨"searching", "Scanning sources", rEmpty⟩,
        ⟨"complete", "done", rEmpty⟩] ∧
    (ask { response := none, loading := false, error := none, streamStatus := "" }
        "q" ([] ++ ⟨"error", "backend down", rEmpty⟩ :: [])).2.1 = none ∧
    (ask { response := none, loading := false, error := none, streamStatus := "" }
        "q" ([] ++ ⟨"error", "backend down", rEmpty⟩ :: [])).1.error =
      some "backend down" := by
  refine ⟨?_, ?_, ?_, ?_⟩
  · exact ask_stream_event_handling.1 _ _ _ _ (by decide)
  · exact (ask_stream_event_handling.2.1 _ "q" _ (by decide) (by decide)).1
  · exact (ask_stream_event_handling.2.2 _ "q" [] _ [] (by decide) (by decide)
      (by decide)).1
  · exact (ask_stream_event_handling.2.2 _ "q" [] _ [] (by decide) (by decide)
      (by decide)).2

end ConsensusSpec
